import Mathlib

/-!
Verification development for the Open1722 sources:
  src/avtp/CommonHeader.c  (IEEE 1722 common-header field accessors)
  examples/acf-can/linux/acf-can-listener.c  (CAN-over-AVTP listener loop)

The PDU buffer is modelled at bit granularity: a `List Bool` whose index
`p` is bit position `p` counted from the most significant bit of the
buffer, consistent with network byte order (byte `p / 8`, bit `7 - p % 8`
inside that byte).  `bytesToBits` converts a concrete byte buffer to this
representation.
-/

/-- One entry of a field-descriptor table: quadlet index, bit offset within
the quadlet (MSB-first), and bit width.  Mirrors `Avtp_FieldDescriptor_t`. -/
structure Avtp_FieldDescriptor_t where
  quadlet : Nat
  offset : Nat
  bits : Nat
deriving DecidableEq, Repr

/-- Bit `p` of the buffer, counted from the buffer's most significant bit;
out-of-range positions read as `false`. -/
def getBit (buf : List Bool) (p : Nat) : Bool :=
  buf.getD p false

/-- Read `n` bits starting at bit position `pos` (MSB first), returned
right-justified as a natural number. -/
def readBits (buf : List Bool) (pos : Nat) : Nat → Nat
  | 0 => 0
  | n + 1 => readBits buf pos n * 2 + cond (getBit buf (pos + n)) 1 0

/-- Write the low `n` bits of `v` into bit positions `pos .. pos + n - 1`
(MSB of the span receives bit `n - 1` of `v`); all other bits untouched. -/
def writeBits (buf : List Bool) (pos : Nat) : Nat → Nat → List Bool
  | 0, _ => buf
  | n + 1, v => (writeBits buf pos n (v / 2)).set (pos + n) (decide (v % 2 = 1))

/-- Modelled from the spec: `Avtp_GetField` (src/avtp/Utils.c is not part of
the provided sources).  Per the spec, it looks up the descriptor for
`field` and reads `bits` bits starting at bit position
`quadlet*32 + offset` counted from the buffer's most significant bit,
right-justified in an unsigned result.  An unknown field id yields 0. -/
def Avtp_GetField (descriptors : List Avtp_FieldDescriptor_t)
    (buffer : List Bool) (field : Nat) : Nat :=
  match descriptors[field]? with
  | none => 0
  | some desc => readBits buffer (32 * desc.quadlet + desc.offset) desc.bits

/-- Error outcomes of the field codec `Set` primitive, from the spec's
error taxonomy. -/
inductive Avtp_SetError where
  | invalidField
  | valueOutOfRange
deriving DecidableEq, Repr

/-- Modelled from the spec: `Avtp_SetField` (src/avtp/Utils.c is not part of
the provided sources).  Per the spec, it fails with `InvalidField` (unknown
id) or `ValueOutOfRange` (value exceeds `2^bits - 1`) before mutating;
otherwise it writes `value`'s low `bits` bits into the target bit span,
leaving all other bits unchanged.  The returned buffer is the mutated one;
on error the input buffer is untouched. -/
def Avtp_SetField (descriptors : List Avtp_FieldDescriptor_t)
    (buffer : List Bool) (field : Nat) (value : Nat) :
    Except Avtp_SetError (List Bool) :=
  match descriptors[field]? with
  | none => .error .invalidField
  | some desc =>
    if 2 ^ desc.bits ≤ value then .error .valueOutOfRange
    else .ok (writeBits buffer (32 * desc.quadlet + desc.offset) desc.bits value)

/-- The common-header field identifiers (`Avtp_CommonHeaderField_t`). -/
inductive Avtp_CommonHeaderField_t where
  | AVTP_COMMON_HEADER_FIELD_SUBTYPE
  | AVTP_COMMON_HEADER_FIELD_H
  | AVTP_COMMON_HEADER_FIELD_VERSION
deriving DecidableEq, Repr

/-- The numeric value of each enumerator (the C `(uint8_t)field` cast). -/
def fieldIndex : Avtp_CommonHeaderField_t → Nat
  | .AVTP_COMMON_HEADER_FIELD_SUBTYPE => 0
  | .AVTP_COMMON_HEADER_FIELD_H => 1
  | .AVTP_COMMON_HEADER_FIELD_VERSION => 2

def AVTP_COMMON_HEADER_FIELD_MAX : Nat := 3

/-- The common-header descriptor table from CommonHeader.c:
Subtype at quadlet 0 offset 0 width 8, H at offset 8 width 1,
Version at offset 9 width 3. -/
def Avtp_CommonHeaderFieldDesc : List Avtp_FieldDescriptor_t :=
  [{ quadlet := 0, offset := 0, bits := 8 },
   { quadlet := 0, offset := 8, bits := 1 },
   { quadlet := 0, offset := 9, bits := 3 }]

/-- `Avtp_CommonHeader_GetField` from CommonHeader.c. -/
def Avtp_CommonHeader_GetField (avtp_pdu : List Bool)
    (field : Avtp_CommonHeaderField_t) : Nat :=
  Avtp_GetField Avtp_CommonHeaderFieldDesc avtp_pdu (fieldIndex field)

/-- `Avtp_CommonHeader_GetSubtype` from CommonHeader.c; the C return type
is `uint8_t`, hence the narrowing to 8 bits. -/
def Avtp_CommonHeader_GetSubtype (avtp_pdu : List Bool) : Nat :=
  Avtp_GetField Avtp_CommonHeaderFieldDesc avtp_pdu 0 % 2 ^ 8

/-- `Avtp_CommonHeader_GetH` from CommonHeader.c (`uint8_t` return). -/
def Avtp_CommonHeader_GetH (avtp_pdu : List Bool) : Nat :=
  Avtp_GetField Avtp_CommonHeaderFieldDesc avtp_pdu 1 % 2 ^ 8

/-- `Avtp_CommonHeader_GetVersion` from CommonHeader.c (`uint8_t` return). -/
def Avtp_CommonHeader_GetVersion (avtp_pdu : List Bool) : Nat :=
  Avtp_GetField Avtp_CommonHeaderFieldDesc avtp_pdu 2 % 2 ^ 8

/-- `Avtp_CommonHeader_SetField` from CommonHeader.c. -/
def Avtp_CommonHeader_SetField (avtp_pdu : List Bool)
    (field : Avtp_CommonHeaderField_t) (value : Nat) :
    Except Avtp_SetError (List Bool) :=
  Avtp_SetField Avtp_CommonHeaderFieldDesc avtp_pdu (fieldIndex field) value

def EINVAL : Nat := 22

/-- `avtp_pdu_get` from CommonHeader.c (legacy API).  The C output pointer
is modelled by `valIsNull` together with the `Option Nat` component of the
result: `none` means nothing was written through the pointer.  The `Int`
component is the C return value.  The C body casts the 64-bit field value
to `uint32_t` before the write, hence `% 2 ^ 32`. -/
def avtp_pdu_get (pdu : List Bool) (field : Avtp_CommonHeaderField_t)
    (valIsNull : Bool) : Int × Option Nat :=
  if valIsNull then (-(EINVAL : Int), none)
  else (0, some (Avtp_CommonHeader_GetField pdu field % 2 ^ 32))

/-- `avtp_pdu_set` from CommonHeader.c (legacy API): a direct delegation to
`Avtp_CommonHeader_SetField` (the C `uint32_t` argument is widened to
`uint64_t` without change of value). -/
def avtp_pdu_set (pdu : List Bool) (field : Avtp_CommonHeaderField_t)
    (value : Nat) : Except Avtp_SetError (List Bool) :=
  Avtp_CommonHeader_SetField pdu field value

/-- Convert one byte to its 8 bits, most significant first. -/
def byteToBits (b : Nat) : List Bool :=
  [b.testBit 7, b.testBit 6, b.testBit 5, b.testBit 4,
   b.testBit 3, b.testBit 2, b.testBit 1, b.testBit 0]

/-- Convert a byte buffer (network order) to the bit-level representation. -/
def bytesToBits (bs : List Nat) : List Bool :=
  bs.foldr (fun b acc => byteToBits b ++ acc) []

/-- The bit width of a common-header field, read off the descriptor table. -/
def fieldBits (field : Avtp_CommonHeaderField_t) : Nat :=
  (Avtp_CommonHeaderFieldDesc[fieldIndex field]?.map Avtp_FieldDescriptor_t.bits).getD 0

/-- The first bit position (from the buffer MSB) of a common-header field. -/
def fieldLo (field : Avtp_CommonHeaderField_t) : Nat :=
  (Avtp_CommonHeaderFieldDesc[fieldIndex field]?.map
    (fun d => 32 * d.quadlet + d.offset)).getD 0

/-- The CAN variant enumeration (`Avtp_CanVariant_t`, declared in
avtp/acf/Can.h outside the provided sources; the two enumerators are the
ones the spec describes and the listener uses). -/
inductive Avtp_CanVariant_t where
  | AVTP_CAN_CLASSIC
  | AVTP_CAN_FD
deriving DecidableEq, Repr

def ARGPARSE_CAN_FD_OPTION : Nat := 500
def ARGPARSE_CAN_IF_OPTION : Nat := 501
def ARGPARSE_LISTENER_ID_OPTION : Nat := 503
def STREAM_ID : Nat := 0xAABBCCDDEEFF0001

/-- The static globals of acf-can-listener.c that the argp callback can
write. -/
structure ListenerGlobals where
  use_udp : Nat
  udp_port : Nat
  can_variant : Avtp_CanVariant_t
  can_ifname : String
  ifname : String
  macaddr : List Nat
  listener_stream_id : Nat
deriving DecidableEq, Repr

/-- Initial values of the listener's static globals (lines 56-62 of
acf-can-listener.c; uninitialized statics are zero in C). -/
def initGlobals : ListenerGlobals :=
  { use_udp := 0, udp_port := 17220, can_variant := .AVTP_CAN_CLASSIC,
    can_ifname := "", ifname := "", macaddr := [0, 0, 0, 0, 0, 0],
    listener_stream_id := STREAM_ID }

/-- A pre-interpreted command-line argument, standing for the C library
calls the argp callback makes on the raw string: `atoiVal` is `atoi(arg)`,
`str` the argument text (the `strncpy` source), `macScan` the result of
the 6-group hex `sscanf` (`none` when it does not match all 6 groups),
`hexScan` the result of the single-group `%lx` `sscanf` (`none` when it
matches nothing). -/
structure ArgValue where
  atoiVal : Nat
  str : String
  macScan : Option (List Nat)
  hexScan : Option Nat
deriving DecidableEq, Repr

/-- The argp callback `parser` of acf-can-listener.c as a transition on the
static globals; `none` models `exit(EXIT_FAILURE)`.  Key codes are the C
character codes of the short options and the option macros. -/
def parser (g : ListenerGlobals) (key : Nat) (arg : ArgValue) :
    Option ListenerGlobals :=
  if key = 112 then some { g with udp_port := arg.atoiVal % 2 ^ 32 }
  else if key = 117 then some { g with use_udp := 1 }
  else if key = ARGPARSE_CAN_FD_OPTION then
    some { g with can_variant := .AVTP_CAN_FD }
  else if key = ARGPARSE_CAN_IF_OPTION then
    some { g with can_ifname := arg.str }
  else if key = 105 then some { g with ifname := arg.str }
  else if key = 100 then
    match arg.macScan with
    | some m => some { g with macaddr := m }
    | none => none
  else if key = ARGPARSE_LISTENER_ID_OPTION then
    match arg.hexScan with
    | some v => some { g with listener_stream_id := v }
    | none => none
  else some g

/-- Modelled from the spec: the content of a received AVTP PDU at the level
of detail spec section 4.5 uses (acf-can-common.c is not part of the
provided sources).  `subtype_matches` says whether the common-header
subtype is the NTSCF/TSCF subtype expected for ACF traffic, `stream_id` is
the embedded 64-bit stream ID, `seqnum` the embedded sequence number
(control-frame or UDP one, per transport), `acf_count` the number of
ACF-CAN fields the payload carries. -/
structure AvtpPduModel where
  subtype_matches : Bool
  stream_id : Nat
  seqnum : Nat
  acf_count : Nat
deriving DecidableEq, Repr

/-- Modelled from the spec: `avtp_to_can` (acf-can-common.c is not part of
the provided sources), following spec section 4.5: (1) return 0 frames if
the subtype does not match; (2) return 0 frames on stream-ID mismatch,
this is a filter, not an error; (3) the sequence-number comparison is
advisory and does not abort processing; (4) decode up to `maxFrames`
(`MAX_CAN_FRAMES_IN_ACF`) frames; (5) return the count; the function never
self-increments the caller's expected-sequence counters, so the counter
components are returned unchanged. -/
def avtp_to_can (maxFrames : Nat) (pdu : AvtpPduModel)
    (_variant : Avtp_CanVariant_t) (_use_udp : Nat)
    (expected_stream_id exp_cf_seqnum exp_udp_seqnum : Nat) :
    Nat × Nat × Nat :=
  if pdu.subtype_matches = false then (0, exp_cf_seqnum, exp_udp_seqnum)
  else if pdu.stream_id ≠ expected_stream_id then
    (0, exp_cf_seqnum, exp_udp_seqnum)
  else (min pdu.acf_count maxFrames, exp_cf_seqnum, exp_udp_seqnum)

/-- Store a C `ssize_t` into a `uint16_t` object, as the listener's
`pdu_length = recv(...)` does (`uint16_t pdu_length`, line 132). -/
def store_u16 (r : Int) : Nat := (r % 65536).toNat

/-- The receive guard `pdu_length < 0 || pdu_length > MAX_ETH_PDU_SIZE`
(line 173); `pdu_length` holds the stored `uint16_t` value, and the first
comparison happens after the C integer promotion to `int`. -/
def recv_length_guard (maxEth pdu_length : Nat) : Bool :=
  decide ((pdu_length : Int) < 0) || decide (pdu_length > maxEth)

/-- Which struct the listener writes to the CAN socket. -/
inductive CanWriteKind where
  | fdFrame
  | ccFrame
deriving DecidableEq, Repr

/-- The if/else-if chain of the listener's frame-write loop (lines 185-188)
selecting which struct is written; `none` is the fall-through in which the
local `res` would stay uninitialized before the `res < 0` test. -/
def frame_write_step (v : Avtp_CanVariant_t) : Option CanWriteKind :=
  if v = .AVTP_CAN_FD then some .fdFrame
  else if v = .AVTP_CAN_CLASSIC then some .ccFrame
  else none

/-- The listener's per-PDU frame-write loop (lines 183-195): for each index
from `i` to `num - 1`, select the write branch, perform the write (whose
OS result is `w i`), and on failure (`res < 0`) log and `continue` — both
arms proceed to the next index.  Returns the list of indices for which a
write was attempted, or `none` if an iteration would read `res`
uninitialized. -/
def frame_write_loop (v : Avtp_CanVariant_t) (i num : Nat) (w : Nat → Int) :
    Option (List Nat) :=
  if _h : i < num then
    match frame_write_step v with
    | none => none
    | some _ =>
      if w i < 0 then
        (frame_write_loop v (i + 1) num w).map (fun rest => i :: rest)
      else
        (frame_write_loop v (i + 1) num w).map (fun rest => i :: rest)
  else some []
termination_by num - i

/-- The listener's expected-sequence counters (`uint8_t exp_cf_seqnum`,
`uint32_t exp_udp_seqnum`). -/
structure ListenerSeqState where
  exp_cf_seqnum : Nat
  exp_udp_seqnum : Nat
deriving DecidableEq, Repr

/-- The per-iteration inputs of the listener loop coming from the outside
world: the `recv` return value, the received PDU content, and the OS
result of each CAN-bus `write`. -/
structure IterationInput where
  recv_ret : Int
  pdu : AvtpPduModel
  writeRes : Nat → Int

/-- One iteration of the listener's infinite receive loop (lines 170-196):
receive, store the length into `uint16_t pdu_length`, skip the iteration
when the guard fires (`continue`), otherwise convert, increment both
expected-sequence counters unconditionally (lines 180-181, with the C
`uint8_t`/`uint32_t` wraparound), and run the frame-write loop
(`num_can_msgs` is a `uint8_t`, hence the `% 256` store).  The result is
the new counter state plus the attempted write indices; every iteration
returns to the top of the loop. -/
def listener_iteration (maxEth maxFrames : Nat) (g : ListenerGlobals)
    (s : ListenerSeqState) (inp : IterationInput) :
    ListenerSeqState × Option (List Nat) :=
  let pdu_length := store_u16 inp.recv_ret
  if recv_length_guard maxEth pdu_length then (s, some [])
  else
    let r := avtp_to_can maxFrames inp.pdu g.can_variant g.use_udp
      g.listener_stream_id s.exp_cf_seqnum s.exp_udp_seqnum
    let num_can_msgs := r.1 % 256
    ({ exp_cf_seqnum := (r.2.1 + 1) % 256,
       exp_udp_seqnum := (r.2.2 + 1) % 2 ^ 32 },
     frame_write_loop g.can_variant 0 num_can_msgs inp.writeRes)

lemma getD_set_self (l : List Bool) (i : Nat) (x : Bool) (h : i < l.length) :
    (l.set i x).getD i false = x := by
  simp [List.getD_eq_getElem?_getD, List.getElem?_set_self, h]

lemma getD_set_ne (l : List Bool) (i j : Nat) (x : Bool) (h : i ≠ j) :
    (l.set i x).getD j false = l.getD j false := by
  rw [List.getD_eq_getElem?_getD, List.getElem?_set_ne h, List.getD_eq_getElem?_getD]

lemma length_writeBits (buf : List Bool) (pos : Nat) :
    ∀ n v, (writeBits buf pos n v).length = buf.length := by
  intro n
  induction n with
  | zero => intro v; rfl
  | succ n ih =>
    intro v
    simp only [writeBits, List.length_set, ih]

lemma getBit_writeBits_outside (buf : List Bool) (pos p : Nat) :
    ∀ n v, p < pos ∨ pos + n ≤ p →
      getBit (writeBits buf pos n v) p = getBit buf p := by
  intro n
  induction n with
  | zero => intro v _; rfl
  | succ n ih =>
    intro v hp
    have hne : pos + n ≠ p := by omega
    simp only [writeBits, getBit] at ih ⊢
    rw [getD_set_ne _ _ _ _ hne]
    exact ih (v / 2) (by omega)

lemma readBits_set_outside (buf : List Bool) (pos q : Nat) (x : Bool) :
    ∀ n, pos + n ≤ q → readBits (buf.set q x) pos n = readBits buf pos n := by
  intro n
  induction n with
  | zero => intro _; rfl
  | succ n ih =>
    intro hq
    have hne : q ≠ pos + n := by omega
    simp only [readBits, getBit]
    rw [getD_set_ne _ _ _ _ hne, ih (by omega)]

lemma readBits_lt (buf : List Bool) (pos : Nat) :
    ∀ n, readBits buf pos n < 2 ^ n := by
  intro n
  induction n with
  | zero => simp [readBits]
  | succ n ih =>
    have hb : cond (getBit buf (pos + n)) 1 0 ≤ 1 := by
      cases getBit buf (pos + n) <;> simp
    simp only [readBits, pow_succ]
    omega

lemma readBits_writeBits (buf : List Bool) (pos : Nat) :
    ∀ n v, v < 2 ^ n → pos + n ≤ buf.length →
      readBits (writeBits buf pos n v) pos n = v := by
  intro n
  induction n with
  | zero =>
    intro v hv _
    simp only [readBits]
    omega
  | succ n ih =>
    intro v hv hlen
    have hv2 : v / 2 < 2 ^ n := by
      have h2 : (2 : Nat) ^ (n + 1) = 2 ^ n * 2 := pow_succ 2 n
      omega
    have hlen2 : pos + n < (writeBits buf pos n (v / 2)).length := by
      rw [length_writeBits]; omega
    have hbit : cond (decide (v % 2 = 1)) 1 0 = v % 2 := by
      rcases Nat.mod_two_eq_zero_or_one v with h | h <;> simp [h]
    simp only [writeBits, readBits, getBit]
    rw [getD_set_self _ _ _ hlen2, readBits_set_outside _ _ _ _ n (by omega),
        ih (v / 2) hv2 (by omega), hbit]
    omega

lemma commonHeader_set_eq (buf : List Bool) (field : Avtp_CommonHeaderField_t)
    (v : Nat) :
    Avtp_CommonHeader_SetField buf field v =
      if 2 ^ fieldBits field ≤ v then .error .valueOutOfRange
      else .ok (writeBits buf (fieldLo field) (fieldBits field) v) := by
  cases field <;> rfl

lemma commonHeader_get_eq (buf : List Bool) (field : Avtp_CommonHeaderField_t) :
    Avtp_CommonHeader_GetField buf field
      = readBits buf (fieldLo field) (fieldBits field) := by
  cases field <;> rfl

lemma fieldSpan_le (field : Avtp_CommonHeaderField_t) :
    fieldLo field + fieldBits field ≤ 32 := by
  cases field <;> decide

/-- C1: For every common-header field id with descriptor width `bits` and
every buffer of at least one quadlet, `Avtp_CommonHeader_SetField` with
`v < 2^bits` followed by `Avtp_CommonHeader_GetField` returns exactly `v`,
and `SetField` rejects every `v ≥ 2^bits` with `ValueOutOfRange` (the
buffer is untouched on rejection, the error carries no buffer). -/
theorem c1_set_get_roundtrip (field : Avtp_CommonHeaderField_t)
    (buf : List Bool) (v : Nat) (hlen : 32 ≤ buf.length) :
    (v < 2 ^ fieldBits field →
      (Avtp_CommonHeader_SetField buf field v).map
        (fun b => Avtp_CommonHeader_GetField b field) = .ok v) ∧
    (2 ^ fieldBits field ≤ v →
      Avtp_CommonHeader_SetField buf field v = .error .valueOutOfRange) := by
  have hspan := fieldSpan_le field
  constructor
  · intro h
    rw [commonHeader_set_eq, if_neg (Nat.not_le.mpr h)]
    simp only [Except.map]
    rw [commonHeader_get_eq,
        readBits_writeBits buf (fieldLo field) (fieldBits field) v h (by omega)]
  · intro h
    rw [commonHeader_set_eq, if_pos h]

/-- Witness for C1 at field Subtype, all-zero one-quadlet buffer, `v = 4`
(in range) and `v = 256` (out of range). -/
theorem c1_set_get_roundtrip_witness :
    (Avtp_CommonHeader_SetField (bytesToBits [0, 0, 0, 0])
        .AVTP_COMMON_HEADER_FIELD_SUBTYPE 4).map
      (fun b => Avtp_CommonHeader_GetField b .AVTP_COMMON_HEADER_FIELD_SUBTYPE)
      = .ok 4 ∧
    Avtp_CommonHeader_SetField (bytesToBits [0, 0, 0, 0])
        .AVTP_COMMON_HEADER_FIELD_SUBTYPE 256 = .error .valueOutOfRange :=
  ⟨(c1_set_get_roundtrip .AVTP_COMMON_HEADER_FIELD_SUBTYPE
      (bytesToBits [0, 0, 0, 0]) 4 (by decide)).1 (by decide),
   (c1_set_get_roundtrip .AVTP_COMMON_HEADER_FIELD_SUBTYPE
      (bytesToBits [0, 0, 0, 0]) 256 (by decide)).2 (by decide)⟩

/-- C2: a successful `Avtp_CommonHeader_SetField` leaves every bit of the
buffer outside the field's exact bit span (positions
`fieldLo field .. fieldLo field + fieldBits field - 1`, counted from the
buffer's most significant bit) unchanged. -/
theorem c2_set_frame (field : Avtp_CommonHeaderField_t) (buf : List Bool)
    (v : Nat) (buf2 : List Bool)
    (hok : Avtp_CommonHeader_SetField buf field v = .ok buf2) (p : Nat)
    (hp : p < fieldLo field ∨ fieldLo field + fieldBits field ≤ p) :
    getBit buf2 p = getBit buf p := by
  rw [commonHeader_set_eq] at hok
  split at hok
  · exact Except.noConfusion hok
  · injection hok with h
    subst h
    exact getBit_writeBits_outside buf (fieldLo field) p (fieldBits field) v hp

/-- Witness for C2: setting H to 1 in an all-ones first byte buffer does
not change bit 0. -/
theorem c2_set_frame_witness :
    getBit (bytesToBits [255, 128, 0, 0]) 0
      = getBit (bytesToBits [255, 0, 0, 0]) 0 :=
  c2_set_frame .AVTP_COMMON_HEADER_FIELD_H (bytesToBits [255, 0, 0, 0]) 1
    (bytesToBits [255, 128, 0, 0]) rfl 0 (Or.inl (by decide))

/-- C3: the descriptor table places Subtype at quadlet 0, offset 0, width 8,
H at offset 8, width 1, Version at offset 9, width 3; consequently on a
buffer whose first quadlet is `0x04000000` the typed getters return
Subtype `0x04`, H `0` and Version `0`. -/
theorem c3_table_layout :
    Avtp_CommonHeaderFieldDesc
      = [⟨0, 0, 8⟩, ⟨0, 8, 1⟩, ⟨0, 9, 3⟩] ∧
    Avtp_CommonHeader_GetSubtype (bytesToBits [0x04, 0x00, 0x00, 0x00]) = 0x04 ∧
    Avtp_CommonHeader_GetH (bytesToBits [0x04, 0x00, 0x00, 0x00]) = 0 ∧
    Avtp_CommonHeader_GetVersion (bytesToBits [0x04, 0x00, 0x00, 0x00]) = 0 := by
  refine ⟨rfl, ?_, ?_, ?_⟩ <;> decide

/-- C4: `avtp_pdu_get` returns `-EINVAL` and writes nothing exactly when
the output pointer is null; otherwise it returns 0 after writing the low
32 bits of the 64-bit `Avtp_CommonHeader_GetField` value — it never fails
with a non-null output pointer. -/
theorem c4_pdu_get (pdu : List Bool) (field : Avtp_CommonHeaderField_t) :
    avtp_pdu_get pdu field true = (-(EINVAL : Int), none) ∧
    avtp_pdu_get pdu field false
      = (0, some (Avtp_CommonHeader_GetField pdu field % 2 ^ 32)) :=
  ⟨rfl, rfl⟩

/-- C5: the legacy setter `avtp_pdu_set` is exactly
`Avtp_CommonHeader_SetField` (same result, same buffer effect), and each
typed getter equals `Avtp_CommonHeader_GetField` at its field identifier
(the `uint8_t` narrowing in the typed getters is value-preserving because
every common-header field is at most 8 bits wide). -/
theorem c5_legacy_shim (pdu : List Bool) (field : Avtp_CommonHeaderField_t)
    (value : Nat) :
    avtp_pdu_set pdu field value = Avtp_CommonHeader_SetField pdu field value ∧
    Avtp_CommonHeader_GetSubtype pdu
      = Avtp_CommonHeader_GetField pdu .AVTP_COMMON_HEADER_FIELD_SUBTYPE ∧
    Avtp_CommonHeader_GetH pdu
      = Avtp_CommonHeader_GetField pdu .AVTP_COMMON_HEADER_FIELD_H ∧
    Avtp_CommonHeader_GetVersion pdu
      = Avtp_CommonHeader_GetField pdu .AVTP_COMMON_HEADER_FIELD_VERSION := by
  refine ⟨rfl, ?_, ?_, ?_⟩
  · show readBits pdu 0 8 % 2 ^ 8 = readBits pdu 0 8
    exact Nat.mod_eq_of_lt (readBits_lt pdu 0 8)
  · show readBits pdu 8 1 % 2 ^ 8 = readBits pdu 8 1
    exact Nat.mod_eq_of_lt (lt_trans (readBits_lt pdu 8 1) (by norm_num))
  · show readBits pdu 9 3 % 2 ^ 8 = readBits pdu 9 3
    exact Nat.mod_eq_of_lt (lt_trans (readBits_lt pdu 9 3) (by norm_num))

lemma avtp_to_can_counters (maxFrames : Nat) (pdu : AvtpPduModel)
    (variant : Avtp_CanVariant_t) (u expId cf udp : Nat) :
    (avtp_to_can maxFrames pdu variant u expId cf udp).2 = (cf, udp) := by
  unfold avtp_to_can
  split
  · rfl
  · split <;> rfl

/-- C6: after every received PDU that passes the length check, the listener
iteration increments `exp_cf_seqnum` and `exp_udp_seqnum` each exactly
once (with their C-type wraparound), unconditionally — for every PDU
content, in particular whether `avtp_to_can` accepted it or discarded it
by stream-ID filtering. -/
theorem c6_unconditional_increment (maxEth maxFrames : Nat)
    (g : ListenerGlobals) (s : ListenerSeqState) (inp : IterationInput)
    (hrecv : recv_length_guard maxEth (store_u16 inp.recv_ret) = false) :
    (listener_iteration maxEth maxFrames g s inp).1.exp_cf_seqnum
        = (s.exp_cf_seqnum + 1) % 256 ∧
    (listener_iteration maxEth maxFrames g s inp).1.exp_udp_seqnum
        = (s.exp_udp_seqnum + 1) % 2 ^ 32 := by
  have hc := avtp_to_can_counters maxFrames inp.pdu g.can_variant g.use_udp
    g.listener_stream_id s.exp_cf_seqnum s.exp_udp_seqnum
  simp only [listener_iteration, hrecv, Bool.false_eq_true, if_false, hc]
  exact ⟨trivial, trivial⟩

/-- Witness for C6 with a PDU whose stream ID (1) differs from the
configured stream ID, so `avtp_to_can` discards it: the counters still
advance from 0 to 1. -/
theorem c6_unconditional_increment_witness :
    (listener_iteration 1500 15 initGlobals ⟨0, 0⟩
        ⟨100, ⟨true, 1, 0, 1⟩, fun _ => 1⟩).1.exp_cf_seqnum
      = (0 + 1) % 256 ∧
    (listener_iteration 1500 15 initGlobals ⟨0, 0⟩
        ⟨100, ⟨true, 1, 0, 1⟩, fun _ => 1⟩).1.exp_udp_seqnum
      = (0 + 1) % 2 ^ 32 :=
  c6_unconditional_increment 1500 15 initGlobals ⟨0, 0⟩
    ⟨100, ⟨true, 1, 0, 1⟩, fun _ => 1⟩ (by decide)

/-- C7: on a PDU whose embedded stream ID differs from the caller-supplied
expected stream ID, `avtp_to_can` returns 0 frames and returns both
sequence counters unchanged. -/
theorem c7_stream_filter (maxFrames : Nat) (pdu : AvtpPduModel)
    (variant : Avtp_CanVariant_t) (u expId cf udp : Nat)
    (hmis : pdu.stream_id ≠ expId) :
    avtp_to_can maxFrames pdu variant u expId cf udp = (0, cf, udp) := by
  cases hsub : pdu.subtype_matches <;> simp [avtp_to_can, hsub, hmis]

/-- Witness for C7: stream ID 1 against expected 2 yields 0 frames and the
counters 5 and 7 unchanged. -/
theorem c7_stream_filter_witness :
    avtp_to_can 15 ⟨true, 1, 0, 3⟩ .AVTP_CAN_CLASSIC 0 2 5 7 = (0, 5, 7) :=
  c7_stream_filter 15 ⟨true, 1, 0, 3⟩ .AVTP_CAN_CLASSIC 0 2 5 7 (by decide)

lemma frame_write_loop_eq (v : Avtp_CanVariant_t) (w : Nat → Int)
    (num : Nat) :
    ∀ k i, num - i = k → frame_write_loop v i num w = some (List.range' i k) := by
  intro k
  induction k with
  | zero =>
    intro i hk
    have hge : ¬ i < num := by omega
    unfold frame_write_loop
    rw [dif_neg hge]
    rfl
  | succ k ih =>
    intro i hk
    have hi : i < num := by omega
    unfold frame_write_loop
    rw [dif_pos hi]
    have hrest := ih (i + 1) (by omega)
    cases v <;>
      (simp only [frame_write_step, reduceIte, ite_self, hrest,
        Option.map_some', List.range']
       try rfl)

/-- C8: in the frame-write loop, a failed CAN write (`res < 0`) does not
abort the loop: for every CAN variant, every frame count and every
pattern of per-frame write results, writes are attempted for all frames
`0 .. num - 1` in order (the `res < 0` arm only logs and continues, never
exits the outer receive loop). -/
theorem c8_write_failure_skipped (v : Avtp_CanVariant_t) (num : Nat)
    (w : Nat → Int) :
    frame_write_loop v 0 num w = some (List.range num) := by
  rw [frame_write_loop_eq v w num num 0 (by omega), List.range_eq_range' num]

/-- C9: `pdu_length` has unsigned 16-bit type, so the guard's first
disjunct `pdu_length < 0` is false for every `recv` return value; a recv
failure `-1` is stored as 65535, and the guard then fires exactly when
65535 exceeds `MAX_ETH_PDU_SIZE` — the guard reduces to its second
disjunct alone. -/
theorem c9_guard_first_disjunct_dead (maxEth : Nat) (r : Int) :
    decide ((store_u16 r : Int) < 0) = false ∧
    store_u16 (-1) = 65535 ∧
    recv_length_guard maxEth (store_u16 r) = decide (store_u16 r > maxEth) := by
  have hnn : (0 : Int) ≤ (store_u16 r : Int) := Int.natCast_nonneg _
  refine ⟨?_, by decide, ?_⟩
  · simp [Int.not_lt.mpr hnn]
  · simp [recv_length_guard, Int.not_lt.mpr hnn]

/-- C10: `can_variant` starts as `AVTP_CAN_CLASSIC`, the option callback
either leaves it unchanged or sets it to `AVTP_CAN_FD` (only the `--fd`
key touches it), and for both reachable values the write loop's if/else-if
chain selects a branch, so the local `res` is always assigned before it is
tested. -/
theorem c10_can_variant_invariant :
    initGlobals.can_variant = .AVTP_CAN_CLASSIC ∧
    (∀ (g : ListenerGlobals) (key : Nat) (arg : ArgValue)
        (g2 : ListenerGlobals), parser g key arg = some g2 →
      g2.can_variant = g.can_variant ∨ g2.can_variant = .AVTP_CAN_FD) ∧
    (∀ v : Avtp_CanVariant_t, (frame_write_step v).isSome = true) := by
  refine ⟨rfl, ?_, ?_⟩
  · intro g key arg g2 hp
    obtain ⟨av, st, mac, hex⟩ := arg
    unfold parser at hp
    split_ifs at hp
    · injection hp with h; subst h; exact Or.inl rfl
    · injection hp with h; subst h; exact Or.inl rfl
    · injection hp with h; subst h; exact Or.inr rfl
    · injection hp with h; subst h; exact Or.inl rfl
    · injection hp with h; subst h; exact Or.inl rfl
    · cases mac with
      | none => exact Option.noConfusion hp
      | some m => injection hp with h; subst h; exact Or.inl rfl
    · cases hex with
      | none => exact Option.noConfusion hp
      | some x => injection hp with h; subst h; exact Or.inl rfl
    · injection hp with h; subst h; exact Or.inl rfl
  · intro v
    cases v <;> rfl

/-- Witness for C10: the `--fd` key on the initial globals yields a state
whose `can_variant` is `AVTP_CAN_FD`. -/
theorem c10_can_variant_invariant_witness :
    ({ initGlobals with can_variant := .AVTP_CAN_FD } :
        ListenerGlobals).can_variant = initGlobals.can_variant ∨
    ({ initGlobals with can_variant := .AVTP_CAN_FD } :
        ListenerGlobals).can_variant = .AVTP_CAN_FD :=
  c10_can_variant_invariant.2.1 initGlobals ARGPARSE_CAN_FD_OPTION
    ⟨0, "", none, none⟩ { initGlobals with can_variant := .AVTP_CAN_FD } rfl
